import Mathlib

/- Shallow embedding of src/app.py (interactive background remover).

   Paths are lists of components (the pieces of a POSIX path between
   separators).  The filesystem is a finite store of regular files and
   directories.  The external collaborators (the PIL codec and the rembg
   segmentation engine) are oracles collected in an `Env` record, and the
   observable actions of a run (prints, rembg invocations, file writes)
   are collected in an `Events` record returned alongside the result. -/

abbrev FsPath := List String

/-- On-disk attributes of one regular file, as the program can observe
them: its byte size (os.path.getsize), whether PIL Image.open followed by
img.verify() succeeds, and whether Image.open followed by
convert("RGBA") succeeds — yielding the id of the resulting 4-channel
image; `none` means that decode raises. -/
structure FileAttrs where
  size : Nat
  verifyOk : Bool
  decodesTo : Option Nat
deriving DecidableEq

/-- The filesystem: an association list of regular files and the list of
existing directories (the empty path, the current directory, always
exists). -/
structure FS where
  files : List (FsPath × FileAttrs)
  dirs : List FsPath
deriving DecidableEq

def FS.lookupFile (fs : FS) (p : FsPath) : Option FileAttrs :=
  (fs.files.find? (fun e => e.1 == p)).map (fun e => e.2)

def FS.isFile (fs : FS) (p : FsPath) : Bool :=
  (fs.lookupFile p).isSome

def FS.isDir (fs : FS) (p : FsPath) : Bool :=
  p.isEmpty || fs.dirs.contains p

/-- os.path.exists: true for a regular file or a directory. -/
def os_path_exists (fs : FS) (p : FsPath) : Bool :=
  fs.isFile p || fs.isDir p

/-- os.path.getsize: `none` means it raises (the path is not a regular
file).  (On an existing directory getsize actually answers with the inode
size, but PIL Image.open then raises, so is_valid_image returns False on
a directory either way; folding that case into the raising branch does
not change any observable result.) -/
def os_path_getsize (fs : FS) (p : FsPath) : Option Nat :=
  (fs.lookupFile p).map (fun a => a.size)

/-- os.path.dirname: everything before the final component. -/
def os_path_dirname (p : FsPath) : FsPath := p.dropLast

/-- Render a component path the way the python code prints it. -/
def pathStr (p : FsPath) : String := String.intercalate "/" p

/-- pathlib.PurePath(name).suffix for a single component: the part from
the last dot on, provided that dot is neither the first character nor the
last one (so a leading-dot name like ".png" and a trailing-dot name like
"a." have no suffix). -/
def path_suffix (name : String) : String :=
  let cs := name.data
  match cs.reverse.findIdx? (fun c => c == '.') with
  | none => ""
  | some j =>
    let i := cs.length - 1 - j
    if 0 < i ∧ i < cs.length - 1 then String.mk (cs.drop i) else ""

/-- posixpath.splitext(p)[0] restricted to a single component: the
extension begins at the last dot, unless every character before that dot
is itself a dot (then there is no extension and the component is returned
whole). -/
def splitext_root_name (name : String) : String :=
  let cs := name.data
  match cs.reverse.findIdx? (fun c => c == '.') with
  | none => name
  | some j =>
    let i := cs.length - 1 - j
    if (cs.take i).all (fun c => c == '.') then name
    else String.mk (cs.take i)

/-- The nonempty initial segments of a path, shortest first. -/
def pathInits (p : FsPath) : List FsPath :=
  (List.range p.length).map (fun k => p.take (k + 1))

/-- os.makedirs(name, exist_ok=True): raises (`none`) when name is the
empty path — os.makedirs('') raises FileNotFoundError, and
os.path.dirname of a bare filename is '' — or when some initial segment
of it exists as a regular file; otherwise it creates every missing
directory along the chain. -/
def makedirs (fs : FS) (p : FsPath) : Option FS :=
  if p.isEmpty then none
  else if (pathInits p).any (fun q => fs.isFile q) then none
  else some { fs with dirs := fs.dirs ++ (pathInits p).filter (fun q => !(fs.dirs.contains q)) }

/-- PIL image.save(output_path, 'PNG', optimize=True), the file-opening
side: fails (`none`) when the parent directory does not exist or the path
itself is a directory; otherwise writes, replacing any previous file at
that path.  The on-disk attributes of the written PNG come from the codec
oracle. -/
def pil_save_png (fs : FS) (p : FsPath) (a : FileAttrs) : Option FS :=
  if (os_path_dirname p).isEmpty || fs.dirs.contains (os_path_dirname p) then
    if fs.isDir p then none
    else some { fs with files := (p, a) :: fs.files.filter (fun e => !(e.1 == p)) }
  else none

/-- One invocation of rembg.remove (lines 79-85 of app.py): the session's
model name, the alpha-matting flag, the three tuning thresholds the code
always passes, and the input PNG bytes id. -/
structure RembgCall where
  model : String
  alpha_matting : Bool
  fg_threshold : Nat
  bg_threshold : Nat
  erode_size : Nat
  input : Nat
deriving DecidableEq

/-- What line 94 writes: output_image.save(output_path, 'PNG',
optimize=True), where output_image is the convert("RGBA") result — a
4-channel PNG, losslessly compressed (PNG is a lossless format; optimize
only tightens the compression). -/
inductive WrittenFile where
  | pngRGBA (imageId : Nat)
deriving DecidableEq

/-- Observable actions of a run: lines printed, rembg invocations made,
image files written. -/
structure Events where
  prints : List String
  rembg_calls : List RembgCall
  writes : List (FsPath × WrittenFile)
deriving DecidableEq

def Events.empty : Events := ⟨[], [], []⟩

def Events.print1 (s : String) : Events := ⟨[s], [], []⟩

def Events.call1 (c : RembgCall) : Events := ⟨[], [c], []⟩

def Events.write1 (p : FsPath) (w : WrittenFile) : Events := ⟨[], [], [(p, w)]⟩

def Events.append (a b : Events) : Events :=
  ⟨a.prints ++ b.prints, a.rembg_calls ++ b.rembg_calls, a.writes ++ b.writes⟩

/-- The external collaborators, as oracles: `deps_ok` — the imports at
lines 50-53 succeed; `new_session_ok` — new_session(model) does not
raise; `encode_png` — the PNG bytes id that input_image.save(BytesIO,
'PNG') produces for a given RGBA image id; `rembg_remove` — rembg.remove,
`none` meaning it raises; `decode_bytes` —
Image.open(BytesIO(bytes)).convert("RGBA"), `none` meaning it raises;
`saved_png` — the on-disk attributes of the PNG file PIL writes for a
given RGBA image id. -/
structure Env where
  deps_ok : Bool
  new_session_ok : String → Bool
  encode_png : Nat → Nat
  rembg_remove : RembgCall → Option Nat
  decode_bytes : Nat → Option Nat
  saved_png : Nat → FileAttrs

/-- check_dependencies (lines 13-22). -/
def check_dependencies (env : Env) : Bool := env.deps_ok

/-- Image.open(file_path) + img.verify() of is_valid_image: false when
opening or verifying raises. -/
def pil_parses (fs : FS) (p : FsPath) : Bool :=
  match fs.lookupFile p with
  | some a => a.verifyOk
  | none => false

/-- is_valid_image (lines 24-34): getsize raises when the path is not a
regular file (caught, → False); a size below 100 returns False; otherwise
the result is whether PIL can open and verify the file.  A pure function
of the store: no side effects. -/
def is_valid_image (fs : FS) (p : FsPath) : Bool :=
  match os_path_getsize fs p with
  | none => false
  | some n => if n < 100 then false else pil_parses fs p

/-- The python signature's default arguments (line 36):
model_name='u2net', alpha_matting=True.  Call sites that use the
defaults (lines 133 and 168) pass these. -/
def default_model_name : String := "u2net"

def default_alpha_matting : Bool := true

/-- The argument record of the rembg.remove invocation (lines 79-85): the
thresholds 240 / 10 / 10 are hard-coded there. -/
def mk_rembg_call (model_name : String) (alpha_matting : Bool) (img_bytes : Nat) : RembgCall :=
  { model := model_name, alpha_matting := alpha_matting,
    fg_threshold := 240, bg_threshold := 10, erode_size := 10,
    input := img_bytes }

/-- The try-block body of remove_background_high_quality (lines 49-97).
`Except.error` is a python exception escaping the block, carrying a
message, the filesystem and the events accumulated up to the raise
point; `Except.ok` is a normal return of the block. -/
def remove_background_body (env : Env) (fs : FS) (input_path output_path : FsPath)
    (model_name : String) (alpha_matting : Bool) :
    Except (String × FS × Events) (Bool × FS × Events) :=
  if !env.deps_ok then
    Except.error ( "ImportError", fs, Events.empty)
  else if !os_path_exists fs input_path then
    Except.ok ( false, fs, Events.print1 ( "❌ Arquivo não encontrado: " ++ pathStr input_path))
  else if !is_valid_image fs input_path then
    Except.ok ( false, fs, Events.print1 ( "❌ Arquivo não é uma imagem válida: " ++ pathStr input_path))
  else
    let ev0 := Events.print1 ( "🔄 Processando com qualidade: " ++ pathStr input_path)
    if !env.new_session_ok model_name then
      Except.error ( "new_session", fs, ev0)
    else
      match fs.lookupFile input_path with
      | none => Except.error ( "Image.open", fs, ev0)
      | some attrs =>
        match attrs.decodesTo with
        | none => Except.error ( "Image.open/convert", fs, ev0)
        | some img =>
          let img_bytes := env.encode_png img
          let call : RembgCall := mk_rembg_call model_name alpha_matting img_bytes
          let ev1 := ev0.append (Events.call1 call)
          match env.rembg_remove call with
          | none => Except.error ( "remove", fs, ev1)
          | some output_bytes =>
            match env.decode_bytes output_bytes with
            | none => Except.error ( "Image.open(output_bytes)", fs, ev1)
            | some output_image =>
              match makedirs fs (os_path_dirname output_path) with
              | none => Except.error ( "makedirs", fs, ev1)
              | some fs2 =>
                match pil_save_png fs2 output_path (env.saved_png output_image) with
                | none => Except.error ( "save", fs2, ev1)
                | some fs3 =>
                  let ev2 := ev1.append (Events.write1 output_path
                    (WrittenFile.pngRGBA output_image))
                  Except.ok ( true, fs3,
                    ev2.append (Events.print1 ( "✅ Salvo: " ++ pathStr output_path)))

/-- remove_background_high_quality (lines 36-101): runs the try-block and
catches every exception it raises, printing the error and returning False
— no exception crosses this boundary. -/
def remove_background_high_quality (env : Env) (fs : FS) (input_path output_path : FsPath)
    (model_name : String) (alpha_matting : Bool) : Bool × FS × Events :=
  match remove_background_body env fs input_path output_path model_name alpha_matting with
  | Except.ok r => r
  | Except.error e =>
    ( false, e.2.1, e.2.2.append (Events.print1 ( "❌ Erro ao processar: " ++ e.1)))

/-- Line 109. -/
def supported_formats : List String :=
  [ ".jpg", ".jpeg", ".png", ".bmp", ".tiff", ".webp"]

/-- str.lower(), character by character (membership in the ASCII
supported-format set is all it is compared against). -/
def str_toLower (s : String) : String :=
  String.mk (s.data.map Char.toLower)

/-- The filter of line 114: Path(file).suffix.lower() in supported_formats. -/
def matches_supported (p : FsPath) : Bool :=
  match p.getLast? with
  | some name => supported_formats.contains (str_toLower (path_suffix name))
  | none => false

/-- Lines 111-115: walk the tree under input_dir, collecting the files
whose pathlib suffix, lowercased, lies in supported_formats.  The flat
file store stands in for os.walk: a file lies under input_dir exactly
when input_dir is a strict initial segment of its path.  (Enumeration
order is store order; the spec leaves walk order unconstrained.)  The
list is fully built before any file is processed, as in the code. -/
def list_image_files (fs : FS) (input_dir : FsPath) : List FsPath :=
  fs.files.filterMap (fun e =>
    if input_dir.isPrefixOf e.1 && decide (input_dir.length < e.1.length)
        && matches_supported e.1
    then some e.1 else none)

/-- os.path.relpath(p, start) in the only case the walker produces: start
is an initial segment of p, and the relative path is the remaining
components. -/
def relpath_under (p start : FsPath) : FsPath := p.drop start.length

/-- splitext(output_file)[0] + '_sem_fundo.png' (line 131), acting on the
final component of the joined path. -/
def with_sem_fundo : FsPath → FsPath
  | [] => [ "_sem_fundo.png"]
  | [name] => [splitext_root_name name ++ "_sem_fundo.png"]
  | c :: cs => c :: with_sem_fundo cs

/-- Lines 129-131: rel_path = os.path.relpath(img_file, input_dir);
output_file = os.path.join(output_dir, rel_path); output_file =
splitext(output_file)[0] + '_sem_fundo.png'. -/
def derive_output (input_dir output_dir p : FsPath) : FsPath :=
  with_sem_fundo (output_dir ++ relpath_under p input_dir)

/-- The per-file loop of lines 126-136, with the two counters as
accumulators.  Besides the tally, the filesystem and the events, it
returns the list of inputs the Single-Image Processor was invoked on. -/
def process_loop (env : Env) (input_dir output_dir : FsPath) :
    List FsPath → FS → Nat → Nat → (Nat × Nat) × FS × Events × List FsPath
  | [], fs, s, f => ((s, f), fs, Events.empty, [])
  | p :: rest, fs, s, f =>
    let r := remove_background_high_quality env fs p (derive_output input_dir output_dir p)
      default_model_name default_alpha_matting
    let rest' := process_loop env input_dir output_dir rest r.2.1
      (if r.1 then s + 1 else s) (if r.1 then f else f + 1)
    (rest'.1, rest'.2.1, r.2.2.append rest'.2.2.1, p :: rest'.2.2.2)

/-- The per-file boolean outcomes of the loop of lines 126-136, in run
order, threading the filesystem exactly as the loop does. -/
def run_outcomes (env : Env) (input_dir output_dir : FsPath) :
    List FsPath → FS → List Bool
  | [], _ => []
  | p :: rest, fs =>
    let r := remove_background_high_quality env fs p (derive_output input_dir output_dir p)
      default_model_name default_alpha_matting
    r.1 :: run_outcomes env input_dir output_dir rest r.2.1

/-- process_directory_high_quality (lines 103-138).  Returns the tally,
the filesystem, the events, and the list of inputs the Single-Image
Processor was invoked on. -/
def process_directory_high_quality (env : Env) (fs : FS) (input_dir output_dir : FsPath) :
    (Nat × Nat) × FS × Events × List FsPath :=
  if !os_path_exists fs input_dir then
    ((0, 0), fs, Events.print1 ( "❌ Diretório não encontrado: " ++ pathStr input_dir), [])
  else
    let image_files := list_image_files fs input_dir
    if image_files.isEmpty then
      ((0, 0), fs, Events.print1 ( "❌ Nenhuma imagem encontrada em: " ++ pathStr input_dir), [])
    else
      let r := process_loop env input_dir output_dir image_files fs 0 0
      (r.1, r.2.1,
        (Events.print1 ( "📸 Encontradas " ++ toString image_files.length ++ " imagens")).append
          r.2.2.1,
        r.2.2.2)

/-- The Interactive Shell's automatic output path (lines 163-166):
base_name = os.path.splitext(input_path)[0]; output_path = base_name +
"_sem_fundo.png". -/
def default_output_path (input_path : FsPath) : FsPath :=
  with_sem_fundo input_path

/- Concrete instances used by witnesses and counterexamples. -/

/-- An environment in which every external collaborator succeeds. -/
def okEnv : Env :=
  { deps_ok := true
    new_session_ok := fun _ => true
    encode_png := fun n => n
    rembg_remove := fun c => some (c.input + 100)
    decode_bytes := fun b => some (b + 1000)
    saved_png := fun img => ⟨ 5000, true, some img⟩ }

/-- Like okEnv, except new_session raises. -/
def badSessionEnv : Env :=
  { okEnv with new_session_ok := fun _ => false }

/-- A store holding exactly one file, "img.png", of size exactly 100
bytes, that PIL parses. -/
def fsBoundary : FS :=
  { files := [ ([ "img.png"], ⟨ 100, true, some 0⟩)], dirs := [] }

/-- A directory "in" with two processable images and one corrupt file
(PIL verify fails on "in/bad.jpg"). -/
def fsBatch : FS :=
  { files := [ ([ "in", "a.png"], ⟨ 500, true, some 1⟩),
               ([ "in", "bad.jpg"], ⟨ 500, false, some 2⟩),
               ([ "in", "c.webp"], ⟨ 500, true, some 3⟩) ]
    dirs := [ [ "in"] ] }

/-- A directory "in" testing case-insensitive extension matching. -/
def fsCase : FS :=
  { files := [ ([ "in", "IMG.PNG"], ⟨ 500, true, some 1⟩),
               ([ "in", "img.png"], ⟨ 500, true, some 2⟩),
               ([ "in", "b.txt"], ⟨ 500, true, some 3⟩) ]
    dirs := [ [ "in"] ] }

/-- A directory "in" holding only a non-image file. -/
def fsTxt : FS :=
  { files := [ ([ "in", "b.txt"], ⟨ 500, true, some 1⟩)], dirs := [ [ "in"] ] }

/-- A valid image "photo.jpg" in the current directory. -/
def fsPhoto : FS :=
  { files := [ ([ "photo.jpg"], ⟨ 500, true, some 7⟩)], dirs := [] }

/-- The empty filesystem. -/
def fsEmpty : FS := { files := [], dirs := [] }

/- C1 -/

/-- C1 (counterexample): for the file "img.png" of size exactly 100 bytes
that PIL parses, is_valid_image returns true although the size does not
exceed 100 bytes — line 28 rejects only sizes strictly below 100, so the
claimed "size exceeds 100 bytes" fails at the boundary. -/
theorem is_valid_image_boundary_counterexample :
    is_valid_image fsBoundary [ "img.png"] = true ∧
    os_path_getsize fsBoundary [ "img.png"] = some 100 ∧ ¬ (100 < 100) := by
  refine ⟨ by decide, by decide, by omega⟩

/-- C1 (amended): is_valid_image returns true iff the file exists, its
size is at least 100 bytes (not: exceeds 100 bytes), and PIL can parse
it.  Every raising step is modelled by a branch evaluating to false, and
the check is a pure function of the store — no side effects. -/
theorem is_valid_image_spec (fs : FS) (p : FsPath) :
    is_valid_image fs p = true ↔
      (os_path_exists fs p = true ∧
       (∃ n, os_path_getsize fs p = some n ∧ 100 ≤ n) ∧
       pil_parses fs p = true) := by
  unfold is_valid_image os_path_getsize os_path_exists FS.isFile pil_parses
  cases hl : fs.lookupFile p with
  | none => simp [hl]
  | some a =>
    simp only [hl, Option.map_some, Option.isSome_some, Bool.true_or, true_and,
      Option.some.injEq]
    constructor
    · intro h
      by_cases hs : a.size < 100
      · simp [hs] at h
      · exact ⟨⟨ a.size, rfl, by omega⟩, by simpa [hs] using h⟩
    · rintro ⟨⟨ n, hn, h100⟩, hv⟩
      have hsize : a.size = n := by simpa using hn
      have hs : ¬ a.size < 100 := by omega
      simp [hs, hv]

/- C4 -/

/-- C4: when the input path does not exist or fails the Image Validator,
the Single-Image Processor returns failure, leaves the filesystem exactly
as it was (so it creates no output file and no output directory) and
records no write. -/
theorem invalid_input_no_output (env : Env) (fs : FS) (i o : FsPath)
    (m : String) (a : Bool)
    (h : os_path_exists fs i = false ∨ is_valid_image fs i = false) :
    (remove_background_high_quality env fs i o m a).1 = false ∧
    (remove_background_high_quality env fs i o m a).2.1 = fs ∧
    (remove_background_high_quality env fs i o m a).2.2.writes = [] := by
  unfold remove_background_high_quality remove_background_body
  rcases h with h | h
  · cases hd : env.deps_ok <;>
      simp [hd, h, Events.print1, Events.append, Events.empty]
  · cases hd : env.deps_ok
    · simp [hd, Events.print1, Events.append, Events.empty]
    · cases he : os_path_exists fs i <;>
        simp [hd, he, h, Events.print1, Events.append, Events.empty]

/-- C4 (witness): on the empty filesystem, processing the missing file
"nope.png" fails and changes nothing. -/
theorem invalid_input_no_output_witness :
    (remove_background_high_quality okEnv fsEmpty [ "nope.png"] [ "o.png"] "u2net" true).1
        = false ∧
    (remove_background_high_quality okEnv fsEmpty [ "nope.png"] [ "o.png"] "u2net" true).2.1
        = fsEmpty ∧
    (remove_background_high_quality okEnv fsEmpty [ "nope.png"] [ "o.png"] "u2net"
        true).2.2.writes = [] :=
  invalid_input_no_output okEnv fsEmpty [ "nope.png"] [ "o.png"] "u2net" true
    (Or.inl (by decide))

/- C5 -/

/-- C5: every exception raised inside the try-block — the body returning
Except.error, at any step: imports, session creation, decode, inference,
re-decode, directory creation, write — is caught by the Single-Image
Processor, reported by printing "❌ Erro ao processar: …", and converted
into the boolean result false, with the filesystem as it stood at the
raise point.  The processor's total return type Bool × FS × Events is the
model-level statement that no exception propagates to its caller. -/
theorem processor_catches_exceptions (env : Env) (fs : FS) (i o : FsPath)
    (m : String) (a : Bool) (e : String) (fs' : FS) (ev : Events)
    (h : remove_background_body env fs i o m a = Except.error ( e, fs', ev)) :
    remove_background_high_quality env fs i o m a =
      ( false, fs', ev.append (Events.print1 ( "❌ Erro ao processar: " ++ e))) := by
  unfold remove_background_high_quality
  rw [h]

/-- C5 (witness): with a session oracle that raises, processing the valid
image "photo.jpg" returns false and prints the error. -/
theorem processor_catches_exceptions_witness :
    remove_background_high_quality badSessionEnv fsPhoto [ "photo.jpg"] [ "out", "x.png"]
        "u2net" true =
      ( false, fsPhoto,
        (Events.print1 ( "🔄 Processando com qualidade: photo.jpg")).append
          (Events.print1 ( "❌ Erro ao processar: " ++ "new_session"))) :=
  processor_catches_exceptions badSessionEnv fsPhoto [ "photo.jpg"] [ "out", "x.png"]
    "u2net" true "new_session" fsPhoto
    (Events.print1 ( "🔄 Processando com qualidade: photo.jpg")) rfl

/- Shared shape lemmas about the Single-Image Processor. -/

/-- Any single run of the processor either makes no rembg invocation or
exactly one, carrying the given model and flag and the hard-coded
thresholds; and whenever it returns success its write log is exactly one
4-channel PNG at the requested output path. -/
theorem rb_shape (env : Env) (fs : FS) (i o : FsPath) (m : String) (a : Bool) :
    ((remove_background_high_quality env fs i o m a).2.2.rembg_calls = [] ∨
     ∃ b, (remove_background_high_quality env fs i o m a).2.2.rembg_calls =
       [ mk_rembg_call m a b ]) ∧
    ((remove_background_high_quality env fs i o m a).1 = true →
     ∃ img, (remove_background_high_quality env fs i o m a).2.2.writes =
       [ (o, WrittenFile.pngRGBA img)]) := by
  unfold remove_background_high_quality remove_background_body
  cases hd : env.deps_ok
  · simp [Events.empty, Events.append, Events.print1]
  · cases he : os_path_exists fs i
    · simp [Events.empty, Events.append, Events.print1]
    · cases hv : is_valid_image fs i
      · simp [Events.empty, Events.append, Events.print1]
      · cases hs : env.new_session_ok m
        · simp [Events.empty, Events.append, Events.print1]
        · cases hl : fs.lookupFile i
          · simp [hl, Events.empty, Events.append, Events.print1]
          case some attrs =>
            cases hdec : attrs.decodesTo
            · simp [hl, hdec, Events.empty, Events.append, Events.print1]
            case some img =>
              cases hrem : env.rembg_remove (mk_rembg_call m a (env.encode_png img))
              · simp [hl, hdec, hrem, Events.empty, Events.append, Events.print1,
                  Events.call1]
              case some ob =>
                cases hdb : env.decode_bytes ob
                · simp [hl, hdec, hrem, hdb, Events.empty, Events.append, Events.print1,
                    Events.call1]
                case some oi =>
                  cases hmk : makedirs fs (os_path_dirname o)
                  · simp [hl, hdec, hrem, hdb, hmk, Events.empty, Events.append,
                      Events.print1, Events.call1]
                  case some fs2 =>
                    cases hsv : pil_save_png fs2 o (env.saved_png oi)
                    · simp [hl, hdec, hrem, hdb, hmk, hsv, Events.empty, Events.append,
                        Events.print1, Events.call1]
                    case some fs3 =>
                      simp [hl, hdec, hrem, hdb, hmk, hsv, Events.empty, Events.append,
                        Events.print1, Events.call1, Events.write1]

/-- Appending the fixed output suffix acts exactly on the final
component. -/
theorem with_sem_fundo_concat : ∀ (xs : FsPath) (name : String),
    with_sem_fundo (xs ++ [ name]) = xs ++ [ splitext_root_name name ++ "_sem_fundo.png"]
  | [], _ => rfl
  | [_], _ => rfl
  | x :: y :: xs, name => by
    simp only [List.cons_append, with_sem_fundo]
    exact congrArg (fun t => x :: t) (with_sem_fundo_concat (y :: xs) name)

/-- An enumerated file lies strictly under the input root and has a
supported extension. -/
theorem list_image_files_mem_cond {fs : FS} {d p : FsPath}
    (hp : p ∈ list_image_files fs d) :
    d.isPrefixOf p = true ∧ d.length < p.length ∧ matches_supported p = true := by
  unfold list_image_files at hp
  rw [List.mem_filterMap] at hp
  obtain ⟨ e, he, hfe⟩ := hp
  split at hfe
  case isTrue hcond =>
    injection hfe with hfe1
    subst hfe1
    simp only [Bool.and_eq_true, decide_eq_true_eq] at hcond
    exact ⟨ hcond.1.1, hcond.1.2, hcond.2⟩
  case isFalse => cases hfe

/-- A path strictly under a root splits as root ++ relative-directory ++
final component, and os.path.relpath returns the part below the root. -/
theorem under_dir_decomp {d p : FsPath} (hpre : d.isPrefixOf p = true)
    (hlen : d.length < p.length) :
    ∃ rel name, p = d ++ (rel ++ [ name]) ∧ relpath_under p d = rel ++ [ name] := by
  have hp : d <+: p := List.isPrefixOf_iff_prefix.mp hpre
  obtain ⟨ t, ht⟩ := hp
  have hdrop : relpath_under p d = t := by
    unfold relpath_under
    rw [← ht]
    simp
  have htne : t ≠ [] := by
    intro h0
    rw [← ht, h0] at hlen
    simp at hlen
  obtain h | ⟨ L, b, hL⟩ := t.eq_nil_or_concat
  · exact absurd h htne
  · refine ⟨ L, b, ?_, ?_⟩
    · rw [← ht, hL]
      simp [List.concat_eq_append]
    · rw [hdrop, hL]
      simp [List.concat_eq_append]

/- C9 -/

/-- C9: the processor's model parameter default is 'u2net' and its
edge-refinement default is enabled (line 36, embedded as the two
default_* constants its call sites pass), and every rembg invocation it
makes — in particular when alpha matting is enabled — carries exactly the
fixed tuning parameters: foreground threshold 240, background threshold
10, erosion size 10, together with the given model name and flag. -/
theorem fixed_tuning_defaults (env : Env) (fs : FS) (i o : FsPath) (m : String) (a : Bool) :
    default_model_name = "u2net" ∧ default_alpha_matting = true ∧
    ((remove_background_high_quality env fs i o m a).2.2.rembg_calls = [] ∨
     ∃ b, (remove_background_high_quality env fs i o m a).2.2.rembg_calls =
       [ { model := m, alpha_matting := a, fg_threshold := 240, bg_threshold := 10,
           erode_size := 10, input := b } ]) :=
  ⟨ rfl, rfl, (rb_shape env fs i o m a).1⟩

/- C3 -/

/-- C3: for every file the Directory Walker enumerates, the derived
output path is exactly output_root ++ relative_dir ++ (basename with its
extension stripped, in the splitext sense, plus "_sem_fundo.png"); and
whenever processing that file succeeds, what was written is exactly one
4-channel PNG (saved losslessly) at that path. -/
theorem walker_output_path_png (env : Env) (fs : FS) (i o p : FsPath)
    (hp : p ∈ list_image_files fs i) :
    (∃ rel name, p = i ++ (rel ++ [ name]) ∧
       derive_output i o p = o ++ (rel ++ [ splitext_root_name name ++ "_sem_fundo.png"])) ∧
    ((remove_background_high_quality env fs p (derive_output i o p)
        default_model_name default_alpha_matting).1 = true →
     ∃ img, (remove_background_high_quality env fs p (derive_output i o p)
        default_model_name default_alpha_matting).2.2.writes =
       [ (derive_output i o p, WrittenFile.pngRGBA img)]) := by
  obtain ⟨ hpre, hlen, hm⟩ := list_image_files_mem_cond hp
  constructor
  · obtain ⟨ rel, name, hdec, hrel⟩ := under_dir_decomp hpre hlen
    refine ⟨ rel, name, hdec, ?_⟩
    unfold derive_output
    rw [hrel, ← List.append_assoc, with_sem_fundo_concat]
    simp
  · exact (rb_shape env fs p (derive_output i o p)
      default_model_name default_alpha_matting).2

/-- C3 (witness): the file in/a.png of the concrete batch store maps to
out/a_sem_fundo.png, and its processing there succeeds writing the PNG. -/
theorem walker_output_path_png_witness :
    (∃ rel name, [ "in", "a.png"] = [ "in"] ++ (rel ++ [ name]) ∧
       derive_output [ "in"] [ "out"] [ "in", "a.png"] =
         [ "out"] ++ (rel ++ [ splitext_root_name name ++ "_sem_fundo.png"])) ∧
    ((remove_background_high_quality okEnv fsBatch [ "in", "a.png"]
        (derive_output [ "in"] [ "out"] [ "in", "a.png"])
        default_model_name default_alpha_matting).1 = true →
     ∃ img, (remove_background_high_quality okEnv fsBatch [ "in", "a.png"]
        (derive_output [ "in"] [ "out"] [ "in", "a.png"])
        default_model_name default_alpha_matting).2.2.writes =
       [ (derive_output [ "in"] [ "out"] [ "in", "a.png"], WrittenFile.pngRGBA img)]) :=
  walker_output_path_png okEnv fsBatch [ "in"] [ "out"] [ "in", "a.png"] (by decide)

/- C6 -/

/-- C6 (code bug): the processor is supposed to ensure the destination
directory exists so that processing succeeds even for output paths with
no directory component — such as the Interactive Shell's automatic
default basename_sem_fundo.png (lines 163-166).  The code instead calls
os.makedirs(os.path.dirname(output_path), exist_ok=True) (line 91); for a
bare filename the dirname is the empty path, and os.makedirs('') raises
FileNotFoundError, which the top-level except turns into failure.  So for
the valid image "photo.jpg" and the shell's default output
"photo_sem_fundo.png", with every external collaborator succeeding, the
processor returns false and writes nothing. -/
theorem default_output_dir_bug :
    default_output_path [ "photo.jpg"] = [ "photo_sem_fundo.png"] ∧
    is_valid_image fsPhoto [ "photo.jpg"] = true ∧
    makedirs fsPhoto (os_path_dirname [ "photo_sem_fundo.png"]) = none ∧
    (remove_background_high_quality okEnv fsPhoto [ "photo.jpg"]
        (default_output_path [ "photo.jpg"]) default_model_name default_alpha_matting).1
      = false ∧
    (remove_background_high_quality okEnv fsPhoto [ "photo.jpg"]
        (default_output_path [ "photo.jpg"]) default_model_name
        default_alpha_matting).2.2.writes = [] := by
  refine ⟨ by decide, by decide, by decide, by decide, by decide⟩

/- C7 -/

/-- C7: a regular file lying strictly under the input root is enumerated
by the Directory Walker iff its extension — its pathlib suffix, compared
case-insensitively — is one of .jpg/.jpeg/.png/.bmp/.tiff/.webp; all
other files are excluded. -/
theorem enumeration_extension_iff (fs : FS) (d p : FsPath)
    (hf : fs.isFile p = true) (hpre : d.isPrefixOf p = true)
    (hlen : d.length < p.length) :
    p ∈ list_image_files fs d ↔
      (∃ name, p.getLast? = some name ∧
        supported_formats.contains (str_toLower (path_suffix name)) = true) := by
  constructor
  · intro hp
    obtain ⟨ _, _, hm⟩ := list_image_files_mem_cond hp
    unfold matches_supported at hm
    cases hg : p.getLast? with
    | none => rw [hg] at hm; cases hm
    | some name =>
      rw [hg] at hm
      exact ⟨ name, rfl, hm⟩
  · rintro ⟨ name, hg, hsup⟩
    unfold list_image_files
    rw [List.mem_filterMap]
    have hfind := hf
    unfold FS.isFile FS.lookupFile at hfind
    cases hfq : fs.files.find? (fun e => e.1 == p) with
    | none => rw [hfq] at hfind; cases hfind
    | some e =>
      have he : e ∈ fs.files := List.mem_of_find?_eq_some hfq
      have hep : e.1 = p := by
        have := List.find?_some hfq
        simpa using this
      refine ⟨ e, he, ?_⟩
      rw [hep]
      have hms : matches_supported p = true := by
        unfold matches_supported
        rw [hg]
        exact hsup
      simp [hpre, hlen, hms]

/-- C7 (witness): in the mixed-case store fsCase, in/IMG.PNG is
enumerated (its suffix lowercases to .png). -/
theorem enumeration_extension_iff_witness :
    [ "in", "IMG.PNG"] ∈ list_image_files fsCase [ "in"] :=
  (enumeration_extension_iff fsCase [ "in"] [ "in", "IMG.PNG"] (by decide) (by decide)
      (by decide)).mpr ⟨ "IMG.PNG", rfl, by decide⟩

/- C8 -/

/-- C8: if the input root does not exist, or no file with a supported
extension lies under it, the Directory Walker returns the tally (0, 0),
invokes the Single-Image Processor on no input, leaves the filesystem
untouched (the output tree is not created) and records no write. -/
theorem empty_walk_no_effects (env : Env) (fs : FS) (i o : FsPath)
    (h : os_path_exists fs i = false ∨ list_image_files fs i = []) :
    (process_directory_high_quality env fs i o).1 = (0, 0) ∧
    (process_directory_high_quality env fs i o).2.1 = fs ∧
    (process_directory_high_quality env fs i o).2.2.1.writes = [] ∧
    (process_directory_high_quality env fs i o).2.2.2 = [] := by
  unfold process_directory_high_quality
  rcases h with h | h
  · simp [h, Events.print1]
  · cases he : os_path_exists fs i
    · simp [he, Events.print1]
    · simp [he, h, Events.print1]

/-- C8 (witness): the directory "in" holding only b.txt yields (0, 0),
no processor invocation and no write. -/
theorem empty_walk_no_effects_witness :
    (process_directory_high_quality okEnv fsTxt [ "in"] [ "out"]).1 = (0, 0) ∧
    (process_directory_high_quality okEnv fsTxt [ "in"] [ "out"]).2.1 = fsTxt ∧
    (process_directory_high_quality okEnv fsTxt [ "in"] [ "out"]).2.2.1.writes = [] ∧
    (process_directory_high_quality okEnv fsTxt [ "in"] [ "out"]).2.2.2 = [] :=
  empty_walk_no_effects okEnv fsTxt [ "in"] [ "out"] (Or.inr (by decide))

/- Walker loop lemmas shared by the batch claims. -/

/-- One outcome is produced per enumerated file. -/
theorem run_outcomes_length (env : Env) (i o : FsPath) :
    ∀ (files : List FsPath) (fs : FS),
      (run_outcomes env i o files fs).length = files.length
  | [], _ => rfl
  | p :: rest, fs => by
    simp only [run_outcomes, List.length_cons]
    rw [run_outcomes_length env i o rest]

/-- The loop of lines 126-136 adds to the accumulators exactly the number
of per-file successes and failures of the run, and invokes the processor
once per enumerated file, in order. -/
theorem process_loop_spec (env : Env) (i o : FsPath) :
    ∀ (files : List FsPath) (fs : FS) (s f : Nat),
      (process_loop env i o files fs s f).1 =
        (s + (run_outcomes env i o files fs).count true,
         f + (run_outcomes env i o files fs).count false) ∧
      (process_loop env i o files fs s f).2.2.2 = files
  | [], fs, s, f => by simp [process_loop, run_outcomes]
  | p :: rest, fs, s, f => by
    simp only [process_loop, run_outcomes]
    cases hr : (remove_background_high_quality env fs p (derive_output i o p)
        default_model_name default_alpha_matting).1
    · have ih := process_loop_spec env i o rest
        (remove_background_high_quality env fs p (derive_output i o p)
          default_model_name default_alpha_matting).2.1 s (f + 1)
      simp [hr, ih.1, ih.2, List.count_cons]
      all_goals omega
    · have ih := process_loop_spec env i o rest
        (remove_background_high_quality env fs p (derive_output i o p)
          default_model_name default_alpha_matting).2.1 (s + 1) f
      simp [hr, ih.1, ih.2, List.count_cons]
      all_goals omega

/-- On booleans, the counts of true and false add up to the length. -/
theorem count_true_add_count_false : ∀ (l : List Bool),
    l.count true + l.count false = l.length
  | [] => rfl
  | b :: l => by
    have ih := count_true_add_count_false l
    cases b <;> (simp [List.count_cons]; omega)

/- C2 -/

/-- C2: whenever in a batch run over the enumerated files exactly one
per-file processing fails and N succeed, the Directory Walker's tally is
exactly (N, 1), and the Single-Image Processor is still invoked on every
enumerated file in order — one file's failure never aborts the batch. -/
theorem batch_isolation_tally (env : Env) (fs : FS) (i o : FsPath) (N : Nat)
    (hex : os_path_exists fs i = true)
    (hN : (run_outcomes env i o (list_image_files fs i) fs).count true = N)
    (h1 : (run_outcomes env i o (list_image_files fs i) fs).count false = 1) :
    (process_directory_high_quality env fs i o).1 = (N, 1) ∧
    (process_directory_high_quality env fs i o).2.2.2 = list_image_files fs i := by
  have hne : (list_image_files fs i).isEmpty = false := by
    cases hE : list_image_files fs i with
    | nil => rw [hE] at h1; simp [run_outcomes] at h1
    | cons a l => simp [hE]
  have hspec := process_loop_spec env i o (list_image_files fs i) fs 0 0
  unfold process_directory_high_quality
  refine ⟨ ?_, ?_⟩ <;> simp [hex, hne, hspec.1, hspec.2, hN, h1]

/-- C2 (witness): in the concrete batch store — in/a.png good, in/bad.jpg
corrupt, in/c.webp good — the per-run outcomes count 2 successes and 1
failure, the tally is (2, 1) and all three files are processed. -/
theorem batch_isolation_tally_witness :
    (process_directory_high_quality okEnv fsBatch [ "in"] [ "out"]).1 = (2, 1) ∧
    (process_directory_high_quality okEnv fsBatch [ "in"] [ "out"]).2.2.2 =
      list_image_files fsBatch [ "in"] :=
  batch_isolation_tally okEnv fsBatch [ "in"] [ "out"] 2 (by decide) (by decide) (by decide)

/- C10 -/

/-- C10: the Directory Walker materializes the list of matching files
from the pre-run store before processing any of them, so the inputs the
Single-Image Processor is invoked on are exactly the enumeration-time
matches — in particular, output files written during the batch (which all
end in .png, a supported extension) are never themselves enumerated or
processed within the same run — and the success and failure counts sum to
exactly the length of that pre-built list. -/
theorem pre_built_list_snapshot (env : Env) (fs : FS) (i o : FsPath)
    (hex : os_path_exists fs i = true) :
    (process_directory_high_quality env fs i o).2.2.2 = list_image_files fs i ∧
    (process_directory_high_quality env fs i o).1.1 +
        (process_directory_high_quality env fs i o).1.2 =
      (list_image_files fs i).length := by
  cases hne : (list_image_files fs i).isEmpty
  case false =>
    have hspec := process_loop_spec env i o (list_image_files fs i) fs 0 0
    have hlen := run_outcomes_length env i o (list_image_files fs i) fs
    have hcnt := count_true_add_count_false (run_outcomes env i o (list_image_files fs i) fs)
    unfold process_directory_high_quality
    refine ⟨ ?_, ?_⟩
    · simp [hex, hne, hspec.2]
    · simp [hex, hne, hspec.1]
      omega
  case true =>
    have hE : list_image_files fs i = [] := List.isEmpty_iff.mp hne
    unfold process_directory_high_quality
    refine ⟨ ?_, ?_⟩ <;> simp [hex, hne, hE]

/-- C10 (witness): on the mixed-case store the two enumerated files are
processed, and the tally sums to 2. -/
theorem pre_built_list_snapshot_witness :
    (process_directory_high_quality okEnv fsCase [ "in"] [ "out"]).2.2.2 =
      list_image_files fsCase [ "in"] ∧
    (process_directory_high_quality okEnv fsCase [ "in"] [ "out"]).1.1 +
        (process_directory_high_quality okEnv fsCase [ "in"] [ "out"]).1.2 =
      (list_image_files fsCase [ "in"]).length :=
  pre_built_list_snapshot okEnv fsCase [ "in"] [ "out"] (by decide)
